import Mathlib

/-!
Shallow embedding of the cam / involute-gear profile code (`sdf/cams.go` and
the involute gear file) of the sdfx repository, over exact real arithmetic.
Pure Go functions become Lean functions on `ℝ`; the small set of external
helpers the file uses (2D vectors, `Atan2`, the sawtooth fold, the polygon
distance primitive, point rotation) are modelled from the specification,
as noted on each definition.
-/

noncomputable section

/-- 2D vector with real components (external `V2` type used by the source). -/
structure V2 where
  x : ℝ
  y : ℝ

/-- Componentwise addition (`V2.Add`). -/
def V2.Add (a b : V2) : V2 := ⟨a.x + b.x, a.y + b.y⟩

/-- Componentwise subtraction (`V2.Sub`). -/
def V2.Sub (a b : V2) : V2 := ⟨a.x - b.x, a.y - b.y⟩

/-- Scalar multiplication (`V2.MulScalar`). -/
def V2.MulScalar (a : V2) (s : ℝ) : V2 := ⟨a.x * s, a.y * s⟩

/-- Dot product (`V2.Dot`). -/
def V2.Dot (a b : V2) : ℝ := a.x * b.x + a.y * b.y

/-- Euclidean length (`V2.Length`). -/
def V2.Length (a : V2) : ℝ := Real.sqrt (a.Dot a)

/-- Normalization (`V2.Normalize`): multiply by the reciprocal length.
With Lean's division-by-zero convention the zero vector normalizes to zero. -/
def V2.Normalize (a : V2) : V2 := a.MulScalar (1 / a.Length)

/-- Axis-aligned bounding box (external `Box2` type). -/
structure Box2 where
  Min : V2
  Max : V2

/-- Two-argument arctangent, modelling Go's `math.Atan2(y, x)` over the reals:
the angle of the vector `(x, y)` in `(-π, π]`. -/
def Atan2 (y x : ℝ) : ℝ :=
  if 0 < x then Real.arctan (y / x)
  else if x < 0 then
    (if 0 ≤ y then Real.arctan (y / x) + Real.pi else Real.arctan (y / x) - Real.pi)
  else
    (if 0 < y then Real.pi / 2 else if y < 0 then -(Real.pi / 2) else 0)

/-! ## Cam Type 1: flat flank cam (`Cam1`, `NewCam1`, `Cam1.Evaluate`) -/

/-- Flat flank cam profile state (`Cam1`). -/
structure Cam1 where
  distance : ℝ
  base_radius : ℝ
  nose_radius : ℝ
  a : V2
  u : V2
  l : ℝ
  bb : Box2

/-- `NewCam1`: build a flat flank cam from the center distance and the two radii,
deriving the flank line data exactly as the source does. -/
def NewCam1 (distance base_radius nose_radius : ℝ) : Cam1 :=
  let sin := (base_radius - nose_radius) / distance
  let cos := Real.sqrt (1 - sin * sin)
  let a := (V2.mk cos sin).MulScalar base_radius
  let b := ((V2.mk cos sin).MulScalar nose_radius).Add ⟨0, distance⟩
  let u := b.Sub a
  { distance := distance
    base_radius := base_radius
    nose_radius := nose_radius
    a := a
    u := u.Normalize
    l := u.Length
    bb := ⟨⟨-base_radius, -base_radius⟩, ⟨base_radius, distance + nose_radius⟩⟩ }

/-- `Cam1.Evaluate`: signed distance to the flat flank cam. -/
def Cam1.Evaluate (s : Cam1) (p : V2) : ℝ :=
  let p0 : V2 := ⟨|p.x|, p.y⟩
  let v := p0.Sub s.a
  let t := v.Dot s.u
  if t < 0 then p0.Length - s.base_radius
  else if t ≤ s.l then v.Dot ⟨s.u.y, -s.u.x⟩
  else (p0.Sub ⟨0, s.distance⟩).Length - s.nose_radius

/-! ## Cam Type 2: three arc cam (`Cam2`, `NewCam2`, `Cam2.Evaluate`) -/

/-- Three arc cam profile state (`Cam2`). -/
structure Cam2 where
  distance : ℝ
  base_radius : ℝ
  nose_radius : ℝ
  flank_radius : ℝ
  flank_center : V2
  theta_base : ℝ
  theta_nose : ℝ
  bb : Box2

/-- `NewCam2`: build a three arc cam, deriving the flank center and the two
intersection angles exactly as the source does. -/
def NewCam2 (distance base_radius nose_radius flank_radius : ℝ) : Cam2 :=
  let r0 := flank_radius - base_radius
  let r1 := flank_radius - nose_radius
  let y := ((r0 * r0) - (r1 * r1) + (distance * distance)) / (2 * distance)
  let x := -Real.sqrt ((r0 * r0) - (y * y))
  let flank_center : V2 := ⟨x, y⟩
  let pb := (((V2.mk 0 0).Sub flank_center).Normalize.MulScalar flank_radius).Sub flank_center
  let pn := (((V2.mk 0 distance).Sub flank_center).Normalize.MulScalar flank_radius).Sub flank_center
  { distance := distance
    base_radius := base_radius
    nose_radius := nose_radius
    flank_radius := flank_radius
    flank_center := flank_center
    theta_base := Atan2 pb.y pb.x
    theta_nose := Atan2 pn.y pn.x
    bb := ⟨⟨-base_radius, -base_radius⟩, ⟨base_radius, distance + nose_radius⟩⟩ }

/-- `Cam2.Evaluate`: signed distance to the three arc cam. -/
def Cam2.Evaluate (s : Cam2) (p : V2) : ℝ :=
  let p0 : V2 := ⟨|p.x|, p.y⟩
  let v := p0.Sub s.flank_center
  let t := Atan2 v.y v.x
  if t < s.theta_base then p0.Length - s.base_radius
  else if s.theta_nose < t then (p0.Sub ⟨0, s.distance⟩).Length - s.nose_radius
  else v.Length - s.flank_radius

/-! ## `MakeCam`: cam profile from design parameters -/

/-- `MakeCam`: derive a cam profile from design parameters.  The Go function
returns an `(SDF2, error)` pair, either of which may be `nil`; we model the
pair as an optional profile together with an optional error string. -/
def MakeCam (cam_type : String) (lift duration max_diameter : ℝ) :
    Option Cam1 × Option String :=
  if max_diameter ≤ 0 then (none, some "max_diameter <= 0")
  else if lift ≤ 0 then (none, some "lift <= 0")
  else if duration ≤ 0 ∨ Real.pi ≤ duration then (none, some "invalid duration")
  else
    let base_radius := max_diameter / 2 - lift
    if base_radius ≤ 0 then (none, some "base_radius <= 0")
    else
      let delta := duration / 2
      if cam_type = "flat_flank" then
        let c := Real.cos delta
        let nose_radius := base_radius - (lift * c) / (1 - c)
        if nose_radius ≤ 0 then (none, some "nose_radius <= 0")
        else
          (some (NewCam1 (base_radius + lift - nose_radius) base_radius nose_radius), none)
      else if cam_type = "three_arc" then (none, none)
      else (none, some "unknown cam_type")

/-! ## Involute gear math (`involute`, `involute_angle`, `InvoluteGearTooth`) -/

/-- `involute`: the involute coordinate for base radius `r` and involute angle `theta`. -/
def involute (r theta : ℝ) : V2 :=
  let c := Real.cos theta
  let s := Real.sin theta
  ⟨r * (c + theta * s), r * (s - theta * c)⟩

/-- `involute_angle`: the involute angle for base radius `r` and radial distance `d`. -/
def involute_angle (r d : ℝ) : ℝ :=
  let x := d / r
  Real.sqrt (x * x - 1)

/-- Modelled from the spec: `Rotate(a).MulPosition p` rotates the point `p`
by the angle `a` about the origin (spec 4.5, "rotated by −center_angle");
the rotation matrix type itself is external to this core. -/
def rotatePoint (theta : ℝ) (p : V2) : V2 :=
  ⟨p.x * Real.cos theta - p.y * Real.sin theta,
   p.x * Real.sin theta + p.y * Real.cos theta⟩

/-- The i-th lower-flank sample of `InvoluteGearTooth`: the involute point at
`start_angle + i·dtheta`, rotated by `-center_angle` (the source's loop writes
`v[i]` to exactly this, accumulating `angle += dtheta`). -/
def involuteToothLower (number_teeth : ℤ)
    (gear_module root_radius base_radius outer_radius backlash : ℝ)
    (facets : ℕ) (i : ℕ) : V2 :=
  let pitch_radius := (number_teeth : ℝ) * gear_module / 2
  let pitch_point := involute base_radius (involute_angle base_radius pitch_radius)
  let face_angle := Atan2 pitch_point.y pitch_point.x
  let backlash_angle := backlash / (2 * pitch_radius)
  let center_angle := Real.pi / (2 * (number_teeth : ℝ)) + face_angle - backlash_angle
  let start_angle := involute_angle base_radius (max base_radius root_radius)
  let stop_angle := involute_angle base_radius outer_radius
  let dtheta := (stop_angle - start_angle) / (facets : ℝ)
  rotatePoint (-center_angle) (involute base_radius (start_angle + (i : ℝ) * dtheta))

/-- The vertex list built by `InvoluteGearTooth` (the source then wraps it in
the external polygon primitive `NewPolySDF2`): `facets+1` lower-flank samples,
their y-mirrors in reverse order (`v[facets+1+i] = mirror v[facets-i]`), and
the origin at index `2*(facets+1)`. -/
def InvoluteGearToothVerts (number_teeth : ℤ)
    (gear_module root_radius base_radius outer_radius backlash : ℝ)
    (facets : ℕ) : List V2 :=
  let lower := involuteToothLower number_teeth gear_module root_radius base_radius
    outer_radius backlash facets
  (List.range (facets + 1)).map lower
    ++ (List.range (facets + 1)).map (fun i => ⟨(lower (facets - i)).x, -(lower (facets - i)).y⟩)
    ++ [⟨0, 0⟩]

/-! ## External helpers used by the gear rack, modelled from the spec -/

/-- Modelled from the spec: the periodic sawtooth fold utility (`SawTooth`),
which is external to this core.  Spec 6 says it maps `x` into `[0, p)`, but
the source comment in `GearRack.Evaluate` ("map p.X back to the [0,half_pitch)
domain", about `Abs(SawTooth(p.X, pitch))`) requires the fold to be centered,
mapping `x` into `[-p/2, p/2)`; we model the centered fold. -/
def SawTooth (x period : ℝ) : ℝ :=
  let x0 := x + period / 2
  x0 - period * ((⌊x0 / period⌋ : ℤ) : ℝ) - period / 2

/-- Distance from `p` to the closed segment from `a` to `b`
(clamped projection onto the segment). -/
def segDist (p a b : V2) : ℝ :=
  let ab := b.Sub a
  let t := ((p.Sub a).Dot ab) / ab.Dot ab
  let tc := max 0 (min 1 t)
  (p.Sub (a.Add (ab.MulScalar tc))).Length

/-- The edge list of a polygon given by its vertex list (consecutive pairs,
wrapping around). -/
def polyEdges (vs : List V2) : List (V2 × V2) := vs.zip (vs.rotate 1)

/-- Minimum of the per-edge segment distances. -/
def minEdgeDist (p : V2) : List (V2 × V2) → ℝ
  | [] => 0
  | [e] => segDist p e.1 e.2
  | e :: e2 :: es => min (segDist p e.1 e.2) (minEdgeDist p (e2 :: es))

/-- Even-odd rule crossing test: the edge `e` crosses the horizontal ray
from `p` towards positive x. -/
def edgeCrosses (p : V2) (e : V2 × V2) : Prop :=
  (¬((p.y < e.1.y) ↔ (p.y < e.2.y))) ∧
    p.x < (e.2.x - e.1.x) * (p.y - e.1.y) / (e.2.y - e.1.y) + e.1.x

open Classical in
/-- Number of edges crossing the horizontal ray from `p`. -/
def crossCount (p : V2) : List (V2 × V2) → ℕ
  | [] => 0
  | e :: es => (if edgeCrosses p e then 1 else 0) + crossCount p es

/-- A point is inside the polygon when the ray crossing count is odd. -/
def insidePoly (vs : List V2) (p : V2) : Prop := Odd (crossCount p (polyEdges vs))

open Classical in
/-- Modelled from the spec: the external polygon-distance primitive
(`NewPolySDF2(...).Evaluate`, spec 6): the signed Euclidean distance from `p`
to the polygon boundary, negative inside (even-odd rule). -/
def PolyEvaluate (vs : List V2) (p : V2) : ℝ :=
  if insidePoly vs p then -(minEdgeDist p (polyEdges vs)) else minEdgeDist p (polyEdges vs)

/-! ## 2D gear rack (`GearRack`, `NewGearRack`, `GearRack.Evaluate`) -/

/-- Gear rack profile state (`GearRack`).  The `tooth` field holds the vertex
list handed to the external polygon primitive. -/
structure GearRack where
  tooth : List V2
  pitch : ℝ
  length : ℝ
  bb : Box2

/-- `NewGearRack`: build a 2D gear rack. -/
def NewGearRack (number_teeth gear_module pressure_angle backlash base_height : ℝ) :
    GearRack :=
  let addendum := gear_module * 1
  let dedendum := gear_module * 1.25
  let tooth_height := base_height + addendum + dedendum
  let pitch := gear_module * Real.pi
  let dx := (addendum + dedendum) * Real.tan pressure_angle
  let dxt := ((pitch / 2) - dx) / 2
  let bl := backlash / 2
  let tooth : List V2 :=
    [⟨pitch, 0⟩, ⟨pitch, base_height⟩, ⟨dx + dxt - bl, base_height⟩,
     ⟨dxt - bl, tooth_height⟩, ⟨-pitch, tooth_height⟩, ⟨-pitch, 0⟩]
  { tooth := tooth
    pitch := pitch
    length := pitch * number_teeth / 2
    bb := ⟨⟨-(pitch * number_teeth / 2), 0⟩, ⟨pitch * number_teeth / 2, tooth_height⟩⟩ }

/-- `GearRack.Evaluate`: signed distance to the gear rack. -/
def GearRack.Evaluate (s : GearRack) (p : V2) : ℝ :=
  let p0 : V2 := ⟨|SawTooth p.x s.pitch|, p.y⟩
  let d0 := PolyEvaluate s.tooth p0
  let d1 := |p.x| - s.length
  max d0 d1

/-! ## General helper lemmas -/

/-- Square root of a concrete perfect square. -/
lemma sqrt_eval (a b : ℝ) (hb : 0 ≤ b) (h : b * b = a) : Real.sqrt a = b := by
  rw [← h]; exact Real.sqrt_mul_self hb

/-- The flank length stored by `NewCam1` is nonnegative (it is a length). -/
lemma NewCam1_l_nonneg (distance base_radius nose_radius : ℝ) :
    0 ≤ (NewCam1 distance base_radius nose_radius).l := by
  simp only [NewCam1, V2.Length]
  exact Real.sqrt_nonneg _

/-- C9: for every r > 0 and d ≥ r, `involute_angle r d = √((d/r)² − 1)`;
in particular `involute_angle r r = 0` and `involute_angle r (2r) = √3`. -/
theorem C9_involute_angle (r d : ℝ) (hr : 0 < r) (hd : r ≤ d) :
    involute_angle r d = Real.sqrt ((d / r) ^ 2 - 1) ∧
    involute_angle r r = 0 ∧
    involute_angle r (2 * r) = Real.sqrt 3 := by
  refine ⟨?_, ?_, ?_⟩
  · simp only [involute_angle]
    congr 1
    ring
  · simp only [involute_angle, div_self hr.ne']
    norm_num
  · simp only [involute_angle]
    rw [mul_div_assoc, div_self hr.ne']
    norm_num

/-- C9 witness at r = 1, d = 3. -/
theorem C9_witness :
    0 < (1 : ℝ) ∧ (1 : ℝ) ≤ 3 ∧
    (involute_angle 1 3 = Real.sqrt ((3 / 1) ^ 2 - 1) ∧
     involute_angle 1 1 = 0 ∧
     involute_angle 1 (2 * 1) = Real.sqrt 3) :=
  ⟨by norm_num, by norm_num, C9_involute_angle 1 3 (by norm_num) (by norm_num)⟩

/-- C5: for every constructed flat flank cam and every point p, with p0 the
mirror of p to nonnegative x, v = p0 − a and t = v·u, `Evaluate` returns
`|p0| − base_radius` when t < 0, the signed flank offset `v·(u.y, −u.x)` when
0 ≤ t ≤ l, and `|p0 − (0, distance)| − nose_radius` when t > l. -/
theorem C5_cam1_evaluate_branches (distance base_radius nose_radius : ℝ) (p : V2) :
    let s := NewCam1 distance base_radius nose_radius
    let p0 : V2 := ⟨|p.x|, p.y⟩
    let v := p0.Sub s.a
    let t := v.Dot s.u
    (t < 0 → s.Evaluate p = p0.Length - s.base_radius) ∧
    (0 ≤ t → t ≤ s.l → s.Evaluate p = v.Dot ⟨s.u.y, -s.u.x⟩) ∧
    (s.l < t → s.Evaluate p = (p0.Sub ⟨0, s.distance⟩).Length - s.nose_radius) := by
  intro s p0 v t
  have hl : 0 ≤ s.l := NewCam1_l_nonneg distance base_radius nose_radius
  refine ⟨fun h => ?_, fun h1 h2 => ?_, fun h => ?_⟩
  · show (if t < 0 then p0.Length - s.base_radius
      else if t ≤ s.l then v.Dot ⟨s.u.y, -s.u.x⟩
      else (p0.Sub ⟨0, s.distance⟩).Length - s.nose_radius) = _
    rw [if_pos h]
  · show (if t < 0 then p0.Length - s.base_radius
      else if t ≤ s.l then v.Dot ⟨s.u.y, -s.u.x⟩
      else (p0.Sub ⟨0, s.distance⟩).Length - s.nose_radius) = _
    rw [if_neg (not_lt.mpr h1), if_pos h2]
  · show (if t < 0 then p0.Length - s.base_radius
      else if t ≤ s.l then v.Dot ⟨s.u.y, -s.u.x⟩
      else (p0.Sub ⟨0, s.distance⟩).Length - s.nose_radius) = _
    rw [if_neg (not_lt.mpr (le_trans hl h.le)), if_neg (not_le.mpr h)]

/-- Concrete fields of the cam `NewCam1 2 1 1` (used by witnesses below). -/
lemma newCam1_2_1_1 :
    (NewCam1 2 1 1).a = ⟨1, 0⟩ ∧ (NewCam1 2 1 1).u = ⟨0, 1⟩ ∧
    (NewCam1 2 1 1).l = 2 ∧ (NewCam1 2 1 1).distance = 2 ∧
    (NewCam1 2 1 1).base_radius = 1 ∧ (NewCam1 2 1 1).nose_radius = 1 := by
  have h0 : ((1 : ℝ) - 1) / 2 = 0 := by norm_num
  have h1 : Real.sqrt (1 - ((1 : ℝ) - 1) / 2 * (((1 : ℝ) - 1) / 2)) = 1 := by
    rw [h0]
    norm_num
  refine ⟨?_, ?_, ?_, rfl, rfl, rfl⟩
  · simp only [NewCam1, h0, h1, V2.MulScalar]
    norm_num
  · simp only [NewCam1, h0, h1, V2.MulScalar, V2.Add, V2.Sub, V2.Normalize, V2.Length, V2.Dot]
    norm_num
    rw [sqrt_eval 4 2 (by norm_num) (by norm_num)]
    norm_num
  · simp only [NewCam1, h0, h1, V2.MulScalar, V2.Add, V2.Sub, V2.Length, V2.Dot]
    norm_num
    rw [sqrt_eval 4 2 (by norm_num) (by norm_num)]

/-- C5 witness: the cam `NewCam1 2 1 1` at the point (0,3), which projects
beyond the flank (t > l), lands in the nose-circle branch. -/
theorem C5_witness :
    (NewCam1 2 1 1).l <
      ((V2.mk |(0 : ℝ)| 3).Sub (NewCam1 2 1 1).a).Dot (NewCam1 2 1 1).u ∧
    (NewCam1 2 1 1).Evaluate ⟨0, 3⟩ =
      ((V2.mk |(0 : ℝ)| 3).Sub ⟨0, (NewCam1 2 1 1).distance⟩).Length -
        (NewCam1 2 1 1).nose_radius := by
  obtain ⟨ha, hu, hl, _hd, _hb, _hn⟩ := newCam1_2_1_1
  have ht : (NewCam1 2 1 1).l <
      ((V2.mk |(0 : ℝ)| 3).Sub (NewCam1 2 1 1).a).Dot (NewCam1 2 1 1).u := by
    rw [ha, hu, hl]
    simp [V2.Sub, V2.Dot]
    norm_num
  exact ⟨ht, (C5_cam1_evaluate_branches 2 1 1 ⟨0, 3⟩).2.2 ht⟩

/-- Structure of a tooth-shaped vertex list: `n+1` samples of `f`, their
mirrors in reverse order, and a closing origin. -/
lemma tooth_shape (f : ℕ → V2) (n : ℕ) :
    ((List.range (n + 1)).map f
      ++ (List.range (n + 1)).map (fun i => V2.mk (f (n - i)).x (-(f (n - i)).y))
      ++ [(⟨0, 0⟩ : V2)]).length = 2 * (n + 1) + 1 ∧
    ((List.range (n + 1)).map f
      ++ (List.range (n + 1)).map (fun i => V2.mk (f (n - i)).x (-(f (n - i)).y))
      ++ [(⟨0, 0⟩ : V2)])[2 * (n + 1)]? = some ⟨0, 0⟩ ∧
    ∀ i ≤ n,
      ((List.range (n + 1)).map f
        ++ (List.range (n + 1)).map (fun i => V2.mk (f (n - i)).x (-(f (n - i)).y))
        ++ [(⟨0, 0⟩ : V2)])[n + 1 + i]? =
      Option.map (fun q : V2 => V2.mk q.x (-q.y))
        (((List.range (n + 1)).map f
          ++ (List.range (n + 1)).map (fun i => V2.mk (f (n - i)).x (-(f (n - i)).y))
          ++ [(⟨0, 0⟩ : V2)])[n - i]?) := by
  have hlen1 : ((List.range (n + 1)).map f).length = n + 1 := by
    simp
  have hlen2 : ((List.range (n + 1)).map
      (fun i => V2.mk (f (n - i)).x (-(f (n - i)).y))).length = n + 1 := by
    simp
  have hlen12 : ((List.range (n + 1)).map f
      ++ (List.range (n + 1)).map
        (fun i => V2.mk (f (n - i)).x (-(f (n - i)).y))).length = 2 * (n + 1) := by
    rw [List.length_append, hlen1, hlen2]
    ring
  refine ⟨?_, ?_, ?_⟩
  · simp
    ring
  · rw [List.getElem?_append_right (le_of_eq hlen12)]
    rw [hlen12]
    have h0 : 2 * (n + 1) - 2 * (n + 1) = 0 := by omega
    rw [h0]
    rfl
  · intro i hi
    have hlhs : ((List.range (n + 1)).map f
        ++ (List.range (n + 1)).map (fun i => V2.mk (f (n - i)).x (-(f (n - i)).y))
        ++ [(⟨0, 0⟩ : V2)])[n + 1 + i]? =
        some (V2.mk (f (n - i)).x (-(f (n - i)).y)) := by
      rw [List.getElem?_append_left (by rw [hlen12]; omega)]
      rw [List.getElem?_append_right (by rw [hlen1]; omega)]
      rw [hlen1]
      have h1 : n + 1 + i - (n + 1) = i := by omega
      rw [h1]
      rw [List.getElem?_map, List.getElem?_range (by omega)]
      rfl
    have hrhs : ((List.range (n + 1)).map f
        ++ (List.range (n + 1)).map (fun i => V2.mk (f (n - i)).x (-(f (n - i)).y))
        ++ [(⟨0, 0⟩ : V2)])[n - i]? = some (f (n - i)) := by
      rw [List.getElem?_append_left (by rw [hlen12]; omega)]
      rw [List.getElem?_append_left (by rw [hlen1]; omega)]
      rw [List.getElem?_map, List.getElem?_range (by omega)]
      rfl
    rw [hlhs, hrhs]
    rfl

/-- C8: for every facets ≥ 1 and any other inputs, the polygon built by
`InvoluteGearTooth` has exactly 2·(facets+1)+1 vertices, its last vertex is
the origin, and each upper-flank vertex is the y-mirror of the corresponding
lower-flank vertex taken in reverse order. -/
theorem C8_tooth_polygon (number_teeth : ℤ)
    (gear_module root_radius base_radius outer_radius backlash : ℝ)
    (facets : ℕ) (hf : 1 ≤ facets) :
    (InvoluteGearToothVerts number_teeth gear_module root_radius base_radius
      outer_radius backlash facets).length = 2 * (facets + 1) + 1 ∧
    (InvoluteGearToothVerts number_teeth gear_module root_radius base_radius
      outer_radius backlash facets)[2 * (facets + 1)]? = some ⟨0, 0⟩ ∧
    ∀ i ≤ facets,
      (InvoluteGearToothVerts number_teeth gear_module root_radius base_radius
        outer_radius backlash facets)[facets + 1 + i]? =
      Option.map (fun q : V2 => V2.mk q.x (-q.y))
        ((InvoluteGearToothVerts number_teeth gear_module root_radius base_radius
          outer_radius backlash facets)[facets - i]?) :=
  tooth_shape (involuteToothLower number_teeth gear_module root_radius base_radius
    outer_radius backlash facets) facets

/-- C8 witness at facets = 2 (and concrete values for the other inputs). -/
theorem C8_witness :
    1 ≤ 2 ∧
    ((InvoluteGearToothVerts 8 1 1 1 1 1 2).length = 2 * (2 + 1) + 1 ∧
     (InvoluteGearToothVerts 8 1 1 1 1 1 2)[2 * (2 + 1)]? = some ⟨0, 0⟩ ∧
     (InvoluteGearToothVerts 8 1 1 1 1 1 2)[2 + 1 + 1]? =
       Option.map (fun q : V2 => V2.mk q.x (-q.y))
         ((InvoluteGearToothVerts 8 1 1 1 1 1 2)[2 - 1]?)) :=
  ⟨by norm_num,
   (C8_tooth_polygon 8 1 1 1 1 1 2 (by norm_num)).1,
   (C8_tooth_polygon 8 1 1 1 1 1 2 (by norm_num)).2.1,
   (C8_tooth_polygon 8 1 1 1 1 1 2 (by norm_num)).2.2 1 (by norm_num)⟩

/-- On (0, π], the cosine is strictly below 1. -/
lemma cos_lt_one_of_pos (x : ℝ) (h0 : 0 < x) (hpi : x ≤ Real.pi) : Real.cos x < 1 := by
  have := Real.strictAntiOn_cos (Set.left_mem_Icc.mpr Real.pi_pos.le) ⟨h0.le, hpi⟩ h0
  simpa using this

/-- C10: whenever the flat_flank path of `MakeCam` succeeds, the triple
(distance, base_radius, nose_radius) it passes to `NewCam1` satisfies
(base_radius − nose_radius)/distance = cos(duration/2), which lies strictly
between 0 and 1, so `NewCam1`'s tangency precondition |(r_b−r_n)/d| ≤ 1 holds
and its square root argument 1 − sin² is nonnegative. -/
theorem C10_flat_flank_tangency
    (lift duration max_diameter base_radius c nose_radius distance : ℝ)
    (hbrdef : base_radius = max_diameter / 2 - lift)
    (hcdef : c = Real.cos (duration / 2))
    (hnrdef : nose_radius = base_radius - (lift * c) / (1 - c))
    (hddef : distance = base_radius + lift - nose_radius)
    (hmd : 0 < max_diameter) (hl : 0 < lift)
    (hd0 : 0 < duration) (hdpi : duration < Real.pi)
    (hbr : 0 < base_radius) (hnr : 0 < nose_radius) :
    MakeCam "flat_flank" lift duration max_diameter =
      (some (NewCam1 distance base_radius nose_radius), none) ∧
    (base_radius - nose_radius) / distance = c ∧
    0 < c ∧ c < 1 ∧
    |(base_radius - nose_radius) / distance| ≤ 1 ∧
    0 ≤ 1 - ((base_radius - nose_radius) / distance) *
      ((base_radius - nose_radius) / distance) := by
  subst hddef hnrdef hcdef hbrdef
  set base_radius := max_diameter / 2 - lift with hbrdef
  set c := Real.cos (duration / 2) with hcdef
  set nose_radius := base_radius - (lift * c) / (1 - c) with hnrdef
  set distance := base_radius + lift - nose_radius with hddef
  have hc0 : 0 < c := by
    rw [hcdef]
    apply Real.cos_pos_of_mem_Ioo
    constructor
    · nlinarith [Real.pi_pos]
    · linarith
  have hc1 : c < 1 := by
    rw [hcdef]
    apply cos_lt_one_of_pos
    · linarith
    · linarith
  have h1c : (0 : ℝ) < 1 - c := by linarith
  have heq : MakeCam "flat_flank" lift duration max_diameter =
      (some (NewCam1 distance base_radius nose_radius), none) := by
    simp only [MakeCam]
    rw [if_neg (not_le.mpr hmd), if_neg (not_le.mpr hl),
      if_neg (by push_neg; exact ⟨hd0, hdpi⟩), if_neg (not_le.mpr hbr),
      if_pos trivial, if_neg (not_le.mpr hnr)]
  have hdist : distance = lift / (1 - c) := by
    rw [hddef, hnrdef]
    field_simp
    ring
  have hratio : (base_radius - nose_radius) / distance = c := by
    rw [hdist]
    have hbn : base_radius - nose_radius = lift * c / (1 - c) := by
      rw [hnrdef]
      ring
    rw [hbn]
    rw [div_div_div_cancel_right₀]
    · exact mul_div_cancel_left₀ c hl.ne'
    · exact h1c.ne'
  refine ⟨heq, hratio, hc0, hc1, ?_, ?_⟩
  · rw [hratio, abs_of_pos hc0]
    linarith
  · rw [hratio]
    nlinarith

/-- C10 witness at lift = 5, duration = 2π/3, max_diameter = 40:
base_radius = 15, nose_radius = 10, distance = 10, ratio = cos(π/3) = 1/2. -/
theorem C10_witness :
    0 < (40 : ℝ) ∧ 0 < (5 : ℝ) ∧ 0 < 2 * Real.pi / 3 ∧ 2 * Real.pi / 3 < Real.pi ∧
    (15 : ℝ) = 40 / 2 - 5 ∧
    (10 : ℝ) = 15 - (5 * Real.cos (2 * Real.pi / 3 / 2)) /
      (1 - Real.cos (2 * Real.pi / 3 / 2)) ∧
    (MakeCam "flat_flank" 5 (2 * Real.pi / 3) 40 = (some (NewCam1 10 15 10), none) ∧
     ((15 : ℝ) - 10) / 10 = Real.cos (2 * Real.pi / 3 / 2) ∧
     0 < Real.cos (2 * Real.pi / 3 / 2) ∧ Real.cos (2 * Real.pi / 3 / 2) < 1 ∧
     |((15 : ℝ) - 10) / 10| ≤ 1 ∧
     0 ≤ 1 - (((15 : ℝ) - 10) / 10) * (((15 : ℝ) - 10) / 10)) := by
  have hpi := Real.pi_pos
  have hcos : Real.cos (2 * Real.pi / 3 / 2) = 1 / 2 := by
    rw [show 2 * Real.pi / 3 / 2 = Real.pi / 3 by ring, Real.cos_pi_div_three]
  refine ⟨by norm_num, by norm_num, by linarith, by linarith, by norm_num, ?_, ?_⟩
  · rw [hcos]
    norm_num
  · exact C10_flat_flank_tangency 5 (2 * Real.pi / 3) 40 15
      (Real.cos (2 * Real.pi / 3 / 2)) 10 10
      (by norm_num) rfl (by rw [hcos]; norm_num) (by norm_num)
      (by norm_num) (by norm_num) (by linarith) (by linarith)
      (by norm_num) (by norm_num)

/-- √3 is above 17/10. -/
lemma sqrt_three_ge : (17 : ℝ) / 10 < Real.sqrt 3 := by
  rw [show (17 : ℝ) / 10 = Real.sqrt ((17 / 10) ^ 2) by rw [Real.sqrt_sq]; norm_num]
  apply Real.sqrt_lt_sqrt <;> norm_num

/-- √3 is below 2. -/
lemma sqrt_three_lt : Real.sqrt 3 < 2 := by
  rw [show (2 : ℝ) = Real.sqrt (2 ^ 2) by rw [Real.sqrt_sq] <;> norm_num]
  apply Real.sqrt_lt_sqrt <;> norm_num

/-- Evaluating `MakeCam` at the spec's example (flat_flank, lift 5,
duration π/3, max_diameter 40): the derived nose radius
15 − 5·cos(π/6)/(1−cos(π/6)) is negative, so the call fails. -/
lemma makeCam_c1 :
    MakeCam "flat_flank" 5 (Real.pi / 3) 40 = (none, some "nose_radius <= 0") := by
  have hpi := Real.pi_pos
  have hcos : Real.cos (Real.pi / 3 / 2) = Real.sqrt 3 / 2 := by
    rw [show Real.pi / 3 / 2 = Real.pi / 6 by ring, Real.cos_pi_div_six]
  have h32 := sqrt_three_ge
  have h2 := sqrt_three_lt
  have hnose : (40 : ℝ) / 2 - 5 -
      (5 * Real.cos (Real.pi / 3 / 2)) / (1 - Real.cos (Real.pi / 3 / 2)) ≤ 0 := by
    rw [hcos]
    have hden : (0 : ℝ) < 1 - Real.sqrt 3 / 2 := by linarith
    rw [sub_nonpos, le_div_iff hden]
    nlinarith
  simp only [MakeCam]
  rw [if_neg (by norm_num), if_neg (by norm_num),
    if_neg (by push_neg; constructor <;> linarith),
    if_neg (by norm_num), if_pos trivial, if_pos hnose]

/-- C1 counterexample: `MakeCam("flat_flank", lift=5, duration=π/3,
max_diameter=40)` does not return a profile, contrary to the claim. -/
theorem C1_counterexample : (MakeCam "flat_flank" 5 (Real.pi / 3) 40).1 = none := by
  rw [makeCam_c1]

/-- C1 amended: at flat_flank, lift=5, duration=π/3, max_diameter=40 the
derived base_radius is 15 and passes its check, but the derived nose_radius
15 − 5·cos(π/6)/(1−cos(π/6)) is negative, so `MakeCam` returns no profile and
the error `nose_radius <= 0`. -/
theorem C1_amended :
    MakeCam "flat_flank" 5 (Real.pi / 3) 40 = (none, some "nose_radius <= 0") ∧
    (40 : ℝ) / 2 - 5 = 15 ∧
    15 - (5 * Real.cos (Real.pi / 6)) / (1 - Real.cos (Real.pi / 6)) < 0 := by
  refine ⟨makeCam_c1, by norm_num, ?_⟩
  rw [Real.cos_pi_div_six]
  have h32 := sqrt_three_ge
  have h2 := sqrt_three_lt
  have hden : (0 : ℝ) < 1 - Real.sqrt 3 / 2 := by linarith
  rw [sub_neg, lt_div_iff hden]
  nlinarith

/-- C3 counterexample: with valid numeric parameters, requesting the
unimplemented three_arc design does NOT return an error (nor a profile):
the source falls through to `return nil, nil`. -/
theorem C3_counterexample : MakeCam "three_arc" 5 (2 * Real.pi / 3) 40 = (none, none) := by
  have hpi := Real.pi_pos
  simp only [MakeCam]
  rw [if_neg (by norm_num), if_neg (by norm_num),
    if_neg (by push_neg; constructor <;> linarith),
    if_neg (by norm_num), if_neg (show ¬("three_arc" = "flat_flank") by decide),
    if_pos trivial]

/-- C3 amended: `MakeCam` returns an error exactly when max_diameter ≤ 0,
lift ≤ 0, duration outside (0, π), derived base_radius ≤ 0, the flat_flank
derived nose_radius ≤ 0, or the cam_type is neither flat_flank nor three_arc;
when no error is returned, the flat_flank path returns a profile while the
(unimplemented) three_arc path returns no profile and no error. -/
theorem C3_amended (cam_type : String) (lift duration max_diameter : ℝ) :
    ((MakeCam cam_type lift duration max_diameter).2 ≠ none ↔
      (max_diameter ≤ 0 ∨ lift ≤ 0 ∨ duration ≤ 0 ∨ Real.pi ≤ duration ∨
       max_diameter / 2 - lift ≤ 0 ∨
       (cam_type = "flat_flank" ∧
         max_diameter / 2 - lift -
           lift * Real.cos (duration / 2) / (1 - Real.cos (duration / 2)) ≤ 0) ∨
       (cam_type ≠ "flat_flank" ∧ cam_type ≠ "three_arc"))) ∧
    ((MakeCam cam_type lift duration max_diameter).2 = none →
      (cam_type = "flat_flank" →
        (MakeCam cam_type lift duration max_diameter).1.isSome = true) ∧
      (cam_type = "three_arc" →
        (MakeCam cam_type lift duration max_diameter).1 = none)) := by
  simp only [MakeCam]
  split_ifs with h1 h2 h3 h4 h5 h6 h7 <;> simp_all <;> tauto

/-- C3 witness: at flat_flank, lift = 5, duration = 2π/3, max_diameter = 40
no error condition holds, so no error and a profile are returned. -/
theorem C3_witness :
    (MakeCam "flat_flank" 5 (2 * Real.pi / 3) 40).2 = none ∧
    (MakeCam "flat_flank" 5 (2 * Real.pi / 3) 40).1.isSome = true := by
  have hpi := Real.pi_pos
  have T := C3_amended "flat_flank" 5 (2 * Real.pi / 3) 40
  have hcos : Real.cos ((2 * Real.pi / 3) / 2) = 1 / 2 := by
    rw [show (2 * Real.pi / 3) / 2 = Real.pi / 3 by ring, Real.cos_pi_div_three]
  have hrhs : ¬((40 : ℝ) ≤ 0 ∨ (5 : ℝ) ≤ 0 ∨ 2 * Real.pi / 3 ≤ 0 ∨
      Real.pi ≤ 2 * Real.pi / 3 ∨ (40 : ℝ) / 2 - 5 ≤ 0 ∨
      (("flat_flank" : String) = "flat_flank" ∧
        (40 : ℝ) / 2 - 5 -
          5 * Real.cos (2 * Real.pi / 3 / 2) / (1 - Real.cos (2 * Real.pi / 3 / 2)) ≤ 0) ∨
      (("flat_flank" : String) ≠ "flat_flank" ∧ ("flat_flank" : String) ≠ "three_arc")) := by
    push_neg
    refine ⟨by norm_num, by norm_num, by linarith, by linarith, by norm_num, ?_, ?_⟩
    · intro _
      rw [show 2 * Real.pi / 3 / 2 = (2 * Real.pi / 3) / 2 by ring, hcos]
      norm_num
    · intro h
      exact absurd rfl h
  have h2 : (MakeCam "flat_flank" 5 (2 * Real.pi / 3) 40).2 = none := by
    by_contra hn
    exact hrhs (T.1.mp hn)
  exact ⟨h2, (T.2 h2).1 rfl⟩

/-- Evaluation helper for `NewCam2`: once the y coordinate and the square root
are computed, the flank center and the stored theta_nose take this shape. -/
lemma NewCam2_eval (distance base_radius nose_radius flank_radius yv xv : ℝ)
    (hy : ((flank_radius - base_radius) * (flank_radius - base_radius) -
      (flank_radius - nose_radius) * (flank_radius - nose_radius) +
      distance * distance) / (2 * distance) = yv)
    (hx : Real.sqrt ((flank_radius - base_radius) * (flank_radius - base_radius) -
      yv * yv) = xv) :
    (NewCam2 distance base_radius nose_radius flank_radius).flank_center = ⟨-xv, yv⟩ ∧
    (NewCam2 distance base_radius nose_radius flank_radius).theta_nose =
      Atan2 ((((V2.mk 0 distance).Sub ⟨-xv, yv⟩).Normalize.MulScalar flank_radius).Sub
          ⟨-xv, yv⟩).y
        ((((V2.mk 0 distance).Sub ⟨-xv, yv⟩).Normalize.MulScalar flank_radius).Sub
          ⟨-xv, yv⟩).x := by
  simp only [NewCam2, hy, hx]
  exact ⟨trivial, trivial⟩

/-- Concrete three arc cam `NewCam2 9 10 3 20`: the flank center is (−8, −6)
and the stored theta_nose is arctan(201/148). -/
lemma newCam2_ex :
    (NewCam2 9 10 3 20).flank_center = ⟨-8, -6⟩ ∧
    (NewCam2 9 10 3 20).theta_nose = Real.arctan (201 / 148) := by
  have hy : (((20 : ℝ) - 10) * (20 - 10) - ((20 : ℝ) - 3) * (20 - 3) + 9 * 9) /
      (2 * 9) = -6 := by norm_num
  have hx : Real.sqrt (((20 : ℝ) - 10) * (20 - 10) - (-6 : ℝ) * (-6)) = 8 := by
    rw [show ((20 : ℝ) - 10) * (20 - 10) - (-6 : ℝ) * (-6) = 64 by norm_num]
    exact sqrt_eval 64 8 (by norm_num) (by norm_num)
  obtain ⟨h1, h2⟩ := NewCam2_eval 9 10 3 20 (-6) 8 hy hx
  refine ⟨h1, ?_⟩
  rw [h2]
  have hlen : (V2.mk (8 : ℝ) 15).Length = 17 := by
    simp only [V2.Length, V2.Dot]
    rw [show (8 : ℝ) * 8 + 15 * 15 = 289 by norm_num]
    exact sqrt_eval 289 17 (by norm_num) (by norm_num)
  simp only [V2.Sub, V2.Normalize, V2.MulScalar]
  norm_num
  rw [hlen]
  simp only [Atan2]
  rw [if_pos (by norm_num)]
  congr 1
  norm_num

/-- C2: the stored theta_nose of `NewCam2 9 10 3 20` is NOT the angle of the
vector from the flank center c to the nose center (0, d).  The source computes
`Atan2` of `normalize((0,d)−c)·r_f − c`, i.e. of a direction vector with the
center subtracted once more, which for this cam is arctan(201/148), while the
angle of (0,d) − c = (8, 15) is arctan(15/8). -/
theorem C2_theta_nose_bug :
    (NewCam2 9 10 3 20).theta_nose ≠
      Atan2 (9 - (NewCam2 9 10 3 20).flank_center.y)
        (0 - (NewCam2 9 10 3 20).flank_center.x) := by
  obtain ⟨hc, hn⟩ := newCam2_ex
  rw [hc, hn]
  have hr : Atan2 ((9 : ℝ) - (V2.mk (-8 : ℝ) (-6)).y) ((0 : ℝ) - (V2.mk (-8 : ℝ) (-6)).x) =
      Real.arctan (15 / 8) := by
    show Atan2 ((9 : ℝ) - (-6)) ((0 : ℝ) - (-8)) = Real.arctan (15 / 8)
    simp only [Atan2]
    rw [if_pos (by norm_num)]
    congr 1
    norm_num
  rw [hr]
  intro h
  have h2 := Real.arctan_injective h
  norm_num at h2

/-- `SawTooth` in terms of the fractional part (for a nonzero period). -/
lemma sawTooth_fract (z p : ℝ) (hp : p ≠ 0) :
    SawTooth z p = p * Int.fract ((z + p / 2) / p) - p / 2 := by
  simp only [SawTooth, Int.fract]
  rw [mul_sub, mul_comm p ((z + p / 2) / p), div_mul_cancel₀ _ hp]

/-- The absolute value of the sawtooth fold is even in its first argument. -/
lemma sawTooth_neg_abs (x p : ℝ) : |SawTooth (-x) p| = |SawTooth x p| := by
  rcases eq_or_ne p 0 with hp | hp
  · subst hp
    simp [SawTooth, abs_neg]
  · rw [sawTooth_fract (-x) p hp, sawTooth_fract x p hp]
    have harg : (-x + p / 2) / p = -((x + p / 2) / p) + 1 := by
      field_simp
      ring
    rw [harg]
    rw [show (-((x + p / 2) / p) + 1 : ℝ) = -((x + p / 2) / p) + (1 : ℤ) by push_cast; ring]
    rw [Int.fract_add_int]
    rcases eq_or_ne (Int.fract ((x + p / 2) / p)) 0 with hf | hf
    · rw [hf, Int.fract_neg_eq_zero.mpr hf]
    · rw [Int.fract_neg hf]
      rw [show p * (1 - Int.fract ((x + p / 2) / p)) - p / 2 =
        -(p * Int.fract ((x + p / 2) / p) - p / 2) by ring]
      rw [abs_neg]

/-- The sawtooth fold is periodic with its period. -/
lemma sawTooth_period (x p : ℝ) : SawTooth (x + p) p = SawTooth x p := by
  rcases eq_or_ne p 0 with hp | hp
  · subst hp
    simp
  · simp only [SawTooth]
    have harg : (x + p + p / 2) / p = (x + p / 2) / p + 1 := by
      field_simp
      ring
    rw [harg]
    rw [show ((x + p / 2) / p + 1 : ℝ) = (x + p / 2) / p + (1 : ℤ) by push_cast; ring]
    rw [Int.floor_add_int]
    push_cast
    ring

/-- C7: for every constructed Cam1, Cam2 and GearRack profile and all real
x, y, `Evaluate` is mirror symmetric about the y axis:
Evaluate(−x, y) = Evaluate(x, y). -/
theorem C7_mirror_symmetry (d1 rb1 rn1 d2 rb2 rn2 rf2 nt m pa bl bh x y : ℝ) :
    (NewCam1 d1 rb1 rn1).Evaluate ⟨-x, y⟩ = (NewCam1 d1 rb1 rn1).Evaluate ⟨x, y⟩ ∧
    (NewCam2 d2 rb2 rn2 rf2).Evaluate ⟨-x, y⟩ = (NewCam2 d2 rb2 rn2 rf2).Evaluate ⟨x, y⟩ ∧
    (NewGearRack nt m pa bl bh).Evaluate ⟨-x, y⟩ =
      (NewGearRack nt m pa bl bh).Evaluate ⟨x, y⟩ := by
  refine ⟨?_, ?_, ?_⟩
  · simp only [Cam1.Evaluate]
    rw [abs_neg]
  · simp only [Cam2.Evaluate]
    rw [abs_neg]
  · simp only [GearRack.Evaluate]
    rw [sawTooth_neg_abs, abs_neg]

/-- Orthonormal decomposition in 2D: knowing the projections of (vx, vy) on
the unit vector (−σ, γ) and on its perpendicular (γ, σ) determines it. -/
lemma flank_decomp (σ γ t w vx vy : ℝ) (hγσ : γ * γ + σ * σ = 1)
    (h0 : vx * (-σ) + vy * γ = t) (hw : vx * γ + vy * σ = w) :
    vx = -σ * t + γ * w ∧ vy = γ * t + σ * w := by
  constructor
  · linear_combination γ * hw - vx * hγσ - σ * h0
  · linear_combination σ * hw - vy * hγσ + γ * h0

/-- A point of the form ((rb+w)·γ, (rb+w)·σ) with γ² + σ² = 1 and w ≥ −rb is
at distance rb + w from the origin. -/
lemma circle_branch (σ γ rb w px py : ℝ) (hγσ : γ * γ + σ * σ = 1)
    (hx : px = γ * (rb + w)) (hy : py = σ * (rb + w)) (hw : -rb ≤ w) :
    Real.sqrt (px * px + py * py) - rb = w := by
  have h1 : px * px + py * py = (rb + w) * (rb + w) := by
    rw [hx, hy]
    linear_combination ((rb + w) * (rb + w)) * hγσ
  rw [h1, Real.sqrt_mul_self (by linarith)]
  ring

/-- Under the strict tangency hypothesis |(r_b−r_n)/d| < 1 (and d > 0), the
flank data of `NewCam1`: with σ = (r_b−r_n)/d and γ = √(1−σ²),
a = (γ·r_b, σ·r_b), u = (−σ, γ) and l = d·γ. -/
lemma NewCam1_flank (d rb rn : ℝ) (hd : 0 < d) (hs : |(rb - rn) / d| < 1) :
    (NewCam1 d rb rn).a = ⟨Real.sqrt (1 - (rb - rn) / d * ((rb - rn) / d)) * rb,
      (rb - rn) / d * rb⟩ ∧
    (NewCam1 d rb rn).u = ⟨-((rb - rn) / d),
      Real.sqrt (1 - (rb - rn) / d * ((rb - rn) / d))⟩ ∧
    (NewCam1 d rb rn).l = d * Real.sqrt (1 - (rb - rn) / d * ((rb - rn) / d)) := by
  have habs := abs_lt.mp hs
  have hσ1 : (rb - rn) / d * ((rb - rn) / d) < 1 := by
    nlinarith [habs.1, habs.2]
  have hγnn : (0 : ℝ) ≤ 1 - (rb - rn) / d * ((rb - rn) / d) := by linarith
  set σ := (rb - rn) / d with hσdef
  set γ := Real.sqrt (1 - σ * σ) with hγdef
  have hγ2 : γ * γ = 1 - σ * σ := Real.mul_self_sqrt hγnn
  have hγpos : 0 < γ := Real.sqrt_pos.mpr (by linarith)
  have hσd : σ * d = rb - rn := by
    rw [hσdef]
    field_simp
  have hA : rn - rb = -(σ * d) := by linarith
  have e1 : γ * rn + 0 - γ * rb = -(γ * σ * d) := by
    have h : γ * rn + 0 - γ * rb = γ * (rn - rb) := by ring
    rw [h, hA]
    ring
  have e2 : σ * rn + d - σ * rb = d * (γ * γ) := by
    have h : σ * rn + d - σ * rb = σ * (rn - rb) + d := by ring
    rw [h, hA, hγ2]
    ring
  have hdot : (γ * rn + 0 - γ * rb) * (γ * rn + 0 - γ * rb) +
      (σ * rn + d - σ * rb) * (σ * rn + d - σ * rb) = (d * γ) * (d * γ) := by
    rw [e1, e2]
    linear_combination (d * d * γ * γ) * hγ2
  have hlen : (V2.mk (γ * rn + 0 - γ * rb) (σ * rn + d - σ * rb)).Length = d * γ := by
    simp only [V2.Length, V2.Dot]
    rw [hdot]
    exact Real.sqrt_mul_self (by positivity)
  have hdγ : d * γ ≠ 0 := by positivity
  refine ⟨?_, ?_, ?_⟩
  · simp only [NewCam1, V2.MulScalar]
  · simp only [NewCam1, V2.MulScalar, V2.Add, V2.Sub, V2.Normalize]
    rw [hlen]
    rw [V2.mk.injEq]
    constructor
    · rw [e1]
      field_simp
      ring
    · rw [e2]
      field_simp
      ring
  · simp only [NewCam1, V2.MulScalar, V2.Add, V2.Sub]
    exact hlen

/-- C6 amended: for every Cam1 constructed with d, r_b, r_n > 0 and STRICT
tangency |(r_b−r_n)/d| < 1, the branch formulas of Evaluate agree at the
branch boundaries on the outward side of each circle: at any p0 with
t = (p0−a)·u = 0 and flank offset w = (p0−a)·(u.y,−u.x) ≥ −r_b the base-circle
value |p0| − r_b equals w, and at any p0 with t = l and w ≥ −r_n the
nose-circle value |p0 − (0,d)| − r_n equals w. -/
theorem C6_amended (d rb rn : ℝ) (hd : 0 < d) (hrb : 0 < rb) (hrn : 0 < rn)
    (hs : |(rb - rn) / d| < 1) (p0 : V2) :
    ((p0.Sub (NewCam1 d rb rn).a).Dot (NewCam1 d rb rn).u = 0 →
      -rb ≤ (p0.Sub (NewCam1 d rb rn).a).Dot
        ⟨(NewCam1 d rb rn).u.y, -(NewCam1 d rb rn).u.x⟩ →
      p0.Length - rb = (p0.Sub (NewCam1 d rb rn).a).Dot
        ⟨(NewCam1 d rb rn).u.y, -(NewCam1 d rb rn).u.x⟩) ∧
    ((p0.Sub (NewCam1 d rb rn).a).Dot (NewCam1 d rb rn).u = (NewCam1 d rb rn).l →
      -rn ≤ (p0.Sub (NewCam1 d rb rn).a).Dot
        ⟨(NewCam1 d rb rn).u.y, -(NewCam1 d rb rn).u.x⟩ →
      (p0.Sub ⟨0, d⟩).Length - rn = (p0.Sub (NewCam1 d rb rn).a).Dot
        ⟨(NewCam1 d rb rn).u.y, -(NewCam1 d rb rn).u.x⟩) := by
  obtain ⟨ha, hu, hl⟩ := NewCam1_flank d rb rn hd hs
  set σ := (rb - rn) / d with hσdef
  set γ := Real.sqrt (1 - σ * σ) with hγdef
  have habs := abs_lt.mp hs
  have hσ1 : σ * σ < 1 := by nlinarith [habs.1, habs.2]
  have hγ2 : γ * γ = 1 - σ * σ := Real.mul_self_sqrt (by linarith)
  have hγσ : γ * γ + σ * σ = 1 := by linarith
  have hσd : σ * d = rb - rn := by
    rw [hσdef]
    field_simp
  rw [ha, hu, hl]
  simp only [V2.Sub, V2.Dot, V2.Length, neg_neg]
  constructor
  · intro h0 hwge
    obtain ⟨hvx, hvy⟩ := flank_decomp σ γ 0
      ((p0.x - γ * rb) * γ + (p0.y - σ * rb) * σ)
      (p0.x - γ * rb) (p0.y - σ * rb) hγσ (by linear_combination h0) rfl
    have hx : p0.x = γ * (rb + ((p0.x - γ * rb) * γ + (p0.y - σ * rb) * σ)) := by
      linear_combination hvx
    have hy : p0.y = σ * (rb + ((p0.x - γ * rb) * γ + (p0.y - σ * rb) * σ)) := by
      linear_combination hvy
    exact circle_branch σ γ rb _ p0.x p0.y hγσ hx hy hwge
  · intro hLt hwge
    obtain ⟨hvx, hvy⟩ := flank_decomp σ γ (d * γ)
      ((p0.x - γ * rb) * γ + (p0.y - σ * rb) * σ)
      (p0.x - γ * rb) (p0.y - σ * rb) hγσ (by linear_combination hLt) rfl
    have hx : p0.x - 0 = γ * (rn + ((p0.x - γ * rb) * γ + (p0.y - σ * rb) * σ)) := by
      linear_combination hvx - γ * hσd
    have hy : p0.y - d = σ * (rn + ((p0.x - γ * rb) * γ + (p0.y - σ * rb) * σ)) := by
      linear_combination hvy + d * hγσ - σ * hσd
    exact circle_branch σ γ rn _ (p0.x - 0) (p0.y - d) hγσ hx hy hwge

/-- Concrete fields of the cam `NewCam1 1 1 1`. -/
lemma newCam1_1_1_1 :
    (NewCam1 1 1 1).a = ⟨1, 0⟩ ∧ (NewCam1 1 1 1).u = ⟨0, 1⟩ ∧ (NewCam1 1 1 1).l = 1 := by
  have h0 : ((1 : ℝ) - 1) / 1 = 0 := by norm_num
  have h1 : Real.sqrt (1 - ((1 : ℝ) - 1) / 1 * (((1 : ℝ) - 1) / 1)) = 1 := by
    rw [h0]
    norm_num
  refine ⟨?_, ?_, ?_⟩
  · simp only [NewCam1, h0, h1, V2.MulScalar]
    norm_num
  · simp only [NewCam1, h0, h1, V2.MulScalar, V2.Add, V2.Sub, V2.Normalize, V2.Length, V2.Dot]
    norm_num
  · simp only [NewCam1, h0, h1, V2.MulScalar, V2.Add, V2.Sub, V2.Length, V2.Dot]
    norm_num

/-- C6 counterexample: for the cam `NewCam1 1 1 1` (valid parameters, with
|(r_b−r_n)/d| = 0 ≤ 1) the point p0 = (−1, 0) has t = (p0−a)·u = 0, yet the
base-circle value |p0| − r_b = 0 differs from the flank-line value
(p0−a)·(u.y,−u.x) = −2: the two branch formulas do not agree at every point
with t = 0. -/
theorem C6_counterexample :
    0 < (1 : ℝ) ∧ |((1 : ℝ) - 1) / 1| ≤ 1 ∧
    ((V2.mk (-1 : ℝ) 0).Sub (NewCam1 1 1 1).a).Dot (NewCam1 1 1 1).u = 0 ∧
    (V2.mk (-1 : ℝ) 0).Length - 1 ≠
      ((V2.mk (-1 : ℝ) 0).Sub (NewCam1 1 1 1).a).Dot
        ⟨(NewCam1 1 1 1).u.y, -(NewCam1 1 1 1).u.x⟩ := by
  obtain ⟨ha, hu, _hl⟩ := newCam1_1_1_1
  have hlen : (V2.mk (-1 : ℝ) 0).Length = 1 := by
    simp only [V2.Length, V2.Dot]
    norm_num
  refine ⟨by norm_num, by norm_num, ?_, ?_⟩
  · rw [ha, hu]
    simp [V2.Sub, V2.Dot]
  · rw [ha, hu, hlen]
    simp [V2.Sub, V2.Dot]
    norm_num

/-- C6 witness: the cam `NewCam1 2 1 1` and the point p0 = (3, 0) satisfy the
amended hypotheses, and there the base branch value equals the flank value. -/
theorem C6_witness :
    0 < (2 : ℝ) ∧ 0 < (1 : ℝ) ∧ |((1 : ℝ) - 1) / 2| < 1 ∧
    ((V2.mk (3 : ℝ) 0).Sub (NewCam1 2 1 1).a).Dot (NewCam1 2 1 1).u = 0 ∧
    -1 ≤ ((V2.mk (3 : ℝ) 0).Sub (NewCam1 2 1 1).a).Dot
      ⟨(NewCam1 2 1 1).u.y, -(NewCam1 2 1 1).u.x⟩ ∧
    (V2.mk (3 : ℝ) 0).Length - 1 =
      ((V2.mk (3 : ℝ) 0).Sub (NewCam1 2 1 1).a).Dot
        ⟨(NewCam1 2 1 1).u.y, -(NewCam1 2 1 1).u.x⟩ := by
  obtain ⟨ha, hu, _hl, _, _, _⟩ := newCam1_2_1_1
  have h0 : ((V2.mk (3 : ℝ) 0).Sub (NewCam1 2 1 1).a).Dot (NewCam1 2 1 1).u = 0 := by
    rw [ha, hu]
    simp [V2.Sub, V2.Dot]
  have hge : -1 ≤ ((V2.mk (3 : ℝ) 0).Sub (NewCam1 2 1 1).a).Dot
      ⟨(NewCam1 2 1 1).u.y, -(NewCam1 2 1 1).u.x⟩ := by
    rw [ha, hu]
    simp [V2.Sub, V2.Dot]
  exact ⟨by norm_num, by norm_num, by norm_num, h0, hge,
    (C6_amended 2 1 1 (by norm_num) (by norm_num) (by norm_num) (by norm_num)
      ⟨3, 0⟩).1 h0 hge⟩

/-- Segment distances are nonnegative. -/
lemma segDist_nonneg (p a b : V2) : 0 ≤ segDist p a b := by
  simp only [segDist, V2.Length]
  exact Real.sqrt_nonneg _

/-- The minimum edge distance is nonnegative. -/
lemma minEdgeDist_nonneg (p : V2) (es : List (V2 × V2)) : 0 ≤ minEdgeDist p es := by
  induction es with
  | nil => simp [minEdgeDist]
  | cons e es ih =>
    cases es with
    | nil => simpa [minEdgeDist] using segDist_nonneg p e.1 e.2
    | cons e2 es2 =>
      simp only [minEdgeDist]
      exact le_min (segDist_nonneg p e.1 e.2) ih

/-- The polygon signed distance is bounded below by minus the minimum edge
distance. -/
lemma polyEval_lower (vs : List V2) (p : V2) :
    -(minEdgeDist p (polyEdges vs)) ≤ PolyEvaluate vs p := by
  simp only [PolyEvaluate]
  split_ifs
  · exact le_refl _
  · have h := minEdgeDist_nonneg p (polyEdges vs)
    linarith

/-- Lower bound for a segment distance from a bound valid at every point of
the segment. -/
lemma segDist_lower (p a b : V2) (c : ℝ) (hc : 0 ≤ c)
    (h : ∀ tc : ℝ, 0 ≤ tc → tc ≤ 1 →
      c * c ≤ (p.Sub (a.Add ((b.Sub a).MulScalar tc))).Dot
        (p.Sub (a.Add ((b.Sub a).MulScalar tc)))) :
    c ≤ segDist p a b := by
  simp only [segDist, V2.Length]
  have htc0 : (0 : ℝ) ≤ max 0 (min 1 (((p.Sub a).Dot (b.Sub a)) / (b.Sub a).Dot (b.Sub a))) :=
    le_max_left 0 _
  have htc1 : max 0 (min 1 (((p.Sub a).Dot (b.Sub a)) / (b.Sub a).Dot (b.Sub a))) ≤ 1 := by
    apply max_le (by norm_num)
    exact min_le_left 1 _
  have hb := h _ htc0 htc1
  calc c = Real.sqrt (c * c) := (Real.sqrt_mul_self hc).symm
  _ ≤ _ := Real.sqrt_le_sqrt hb

/-- Fields of the concrete gear rack `NewGearRack 10 (2/π) 0 0 1`:
pitch 2, half length 10, and the half-tooth hexagon with top height
th = 1 + 4.5/π. -/
lemma rack_ex :
    (NewGearRack 10 (2 / Real.pi) 0 0 1).pitch = 2 ∧
    (NewGearRack 10 (2 / Real.pi) 0 0 1).length = 10 ∧
    (NewGearRack 10 (2 / Real.pi) 0 0 1).tooth =
      [⟨2, 0⟩, ⟨2, 1⟩, ⟨1 / 2, 1⟩, ⟨1 / 2, 1 + 4.5 / Real.pi⟩,
       ⟨-2, 1 + 4.5 / Real.pi⟩, ⟨-2, 0⟩] := by
  have hpi := Real.pi_pos
  have hpitch : 2 / Real.pi * Real.pi = 2 := div_mul_cancel₀ 2 hpi.ne'
  have hth : 1 + 2 / Real.pi * 1 + 2 / Real.pi * 1.25 = 1 + 4.5 / Real.pi := by
    field_simp
    ring
  refine ⟨?_, ?_, ?_⟩
  · show 2 / Real.pi * Real.pi = 2
    exact hpitch
  · show 2 / Real.pi * Real.pi * 10 / 2 = 10
    rw [hpitch]
    norm_num
  · simp only [NewGearRack, Real.tan_zero, mul_zero, zero_div, sub_zero, add_zero,
      zero_add, hpitch, hth]
    norm_num

/-- Folding −9.9 with period 2 gives 0.1. -/
lemma sawTooth_ex : SawTooth (-(99 / 10) : ℝ) 2 = 1 / 10 := by
  have hfloor : ⌊((-(99 / 10) : ℝ) + 2 / 2) / 2⌋ = -5 := by
    rw [Int.floor_eq_iff]
    constructor <;> norm_num
  simp only [SawTooth, hfloor]
  norm_num

/-- Folding 0 with period 2 gives 0. -/
lemma sawTooth_zero : SawTooth (0 : ℝ) 2 = 0 := by
  have hfloor : ⌊((0 : ℝ) + 2 / 2) / 2⌋ = 0 := by
    rw [Int.floor_eq_iff]
    constructor <;> norm_num
  simp only [SawTooth, hfloor]
  norm_num

/-- The edge list of an explicit hexagon. -/
lemma polyEdges_ex (v1 v2 v3 v4 v5 v6 : V2) :
    polyEdges [v1, v2, v3, v4, v5, v6] =
      [(v1, v2), (v2, v3), (v3, v4), (v4, v5), (v5, v6), (v6, v1)] := by
  rfl

/-- `minEdgeDist` over six explicit edges. -/
lemma minEdgeDist_six (p : V2) (e1 e2 e3 e4 e5 e6 : V2 × V2) :
    minEdgeDist p [e1, e2, e3, e4, e5, e6] =
      min (segDist p e1.1 e1.2) (min (segDist p e2.1 e2.2) (min (segDist p e3.1 e3.2)
        (min (segDist p e4.1 e4.2) (min (segDist p e5.1 e5.2) (segDist p e6.1 e6.2))))) :=
  rfl

/-- Exact value of a segment distance when the projection parameter lands in
[0, 1] and the resulting squared distance is a known square. -/
lemma segDist_eval (p a b : V2) (t v : ℝ)
    (ht : ((p.Sub a).Dot (b.Sub a)) / (b.Sub a).Dot (b.Sub a) = t)
    (h0 : 0 ≤ t) (h1 : t ≤ 1) (hv : 0 ≤ v)
    (hd : (p.Sub (a.Add ((b.Sub a).MulScalar t))).Dot
      (p.Sub (a.Add ((b.Sub a).MulScalar t))) = v * v) :
    segDist p a b = v := by
  simp only [segDist, V2.Length]
  rw [ht, min_eq_right h1, max_eq_right h0, hd]
  exact Real.sqrt_mul_self hv

/-- Edge (2,0)–(2,1) is at distance at least 1/2 from (0.1, 0.5). -/
lemma seg_lb_e1 : (1 / 2 : ℝ) ≤ segDist ⟨1 / 10, 1 / 2⟩ ⟨2, 0⟩ ⟨2, 1⟩ := by
  apply segDist_lower _ _ _ _ (by norm_num)
  intro tc h0 h1
  simp only [V2.Sub, V2.Add, V2.MulScalar, V2.Dot]
  nlinarith [sq_nonneg ((1 : ℝ) / 2 - tc)]

/-- Edge (2,1)–(1/2,1) is at distance at least 1/2 from (0.1, 0.5). -/
lemma seg_lb_e2 : (1 / 2 : ℝ) ≤ segDist ⟨1 / 10, 1 / 2⟩ ⟨2, 1⟩ ⟨1 / 2, 1⟩ := by
  apply segDist_lower _ _ _ _ (by norm_num)
  intro tc h0 h1
  simp only [V2.Sub, V2.Add, V2.MulScalar, V2.Dot]
  nlinarith [sq_nonneg ((1 : ℝ) / 10 - (2 + (1 / 2 - 2) * tc))]

/-- Edge (1/2,1)–(1/2,th) is at distance at least 1/2 from (0.1, 0.5). -/
lemma seg_lb_e3 (th : ℝ) (hth : 1 ≤ th) :
    (1 / 2 : ℝ) ≤ segDist ⟨1 / 10, 1 / 2⟩ ⟨1 / 2, 1⟩ ⟨1 / 2, th⟩ := by
  apply segDist_lower _ _ _ _ (by norm_num)
  intro tc h0 h1
  simp only [V2.Sub, V2.Add, V2.MulScalar, V2.Dot]
  nlinarith [mul_nonneg (sub_nonneg.mpr hth) h0, sq_nonneg ((th - 1) * tc)]

/-- Edge (1/2,th)–(−2,th) is at distance at least 1/2 from (0.1, 0.5). -/
lemma seg_lb_e4 (th : ℝ) (hth : 1 ≤ th) :
    (1 / 2 : ℝ) ≤ segDist ⟨1 / 10, 1 / 2⟩ ⟨1 / 2, th⟩ ⟨-2, th⟩ := by
  apply segDist_lower _ _ _ _ (by norm_num)
  intro tc h0 h1
  simp only [V2.Sub, V2.Add, V2.MulScalar, V2.Dot]
  nlinarith [mul_nonneg (le_trans zero_le_one hth) (sub_nonneg.mpr hth),
    sq_nonneg ((1 : ℝ) / 10 - (1 / 2 + (-2 - 1 / 2) * tc))]

/-- Edge (−2,th)–(−2,0) is at distance at least 1/2 from (0.1, 0.5). -/
lemma seg_lb_e5 (th : ℝ) :
    (1 / 2 : ℝ) ≤ segDist ⟨1 / 10, 1 / 2⟩ ⟨-2, th⟩ ⟨-2, 0⟩ := by
  apply segDist_lower _ _ _ _ (by norm_num)
  intro tc h0 h1
  simp only [V2.Sub, V2.Add, V2.MulScalar, V2.Dot]
  nlinarith [sq_nonneg ((1 : ℝ) / 2 - (th + (0 - th) * tc))]

/-- The bottom edge (−2,0)–(2,0) is at distance exactly 1/2 from (0.1, 0.5). -/
lemma seg_e6 : segDist ⟨1 / 10, 1 / 2⟩ ⟨-2, 0⟩ ⟨2, 0⟩ = 1 / 2 := by
  apply segDist_eval _ _ _ (21 / 40) (1 / 2)
  · simp only [V2.Sub, V2.Dot]
    norm_num
  · norm_num
  · norm_num
  · norm_num
  · simp only [V2.Sub, V2.Add, V2.MulScalar, V2.Dot]
    norm_num

/-- Minimum edge distance of the concrete tooth hexagon from (0.1, 0.5). -/
lemma minEdge_ex (th : ℝ) (hth : 1 ≤ th) :
    minEdgeDist ⟨1 / 10, 1 / 2⟩
      (polyEdges [⟨2, 0⟩, ⟨2, 1⟩, ⟨1 / 2, 1⟩, ⟨1 / 2, th⟩, ⟨-2, th⟩, ⟨-2, 0⟩]) = 1 / 2 := by
  rw [polyEdges_ex, minEdgeDist_six]
  rw [seg_e6]
  rw [min_eq_right (seg_lb_e5 th)]
  rw [min_eq_right (seg_lb_e4 th hth)]
  rw [min_eq_right (seg_lb_e3 th hth)]
  rw [min_eq_right seg_lb_e2]
  rw [min_eq_right seg_lb_e1]

/-- The ray from (0.1, 0.5) crosses exactly one edge of the tooth hexagon. -/
lemma crossCount_ex (th : ℝ) (hth : 1 ≤ th) :
    crossCount ⟨1 / 10, 1 / 2⟩
      (polyEdges [⟨2, 0⟩, ⟨2, 1⟩, ⟨1 / 2, 1⟩, ⟨1 / 2, th⟩, ⟨-2, th⟩, ⟨-2, 0⟩]) = 1 := by
  rw [polyEdges_ex]
  simp only [crossCount]
  have hc1 : edgeCrosses ⟨1 / 10, 1 / 2⟩ ((⟨2, 0⟩ : V2), (⟨2, 1⟩ : V2)) := by
    constructor
    · intro hiff
      have h := hiff.mpr (by norm_num)
      norm_num at h
    · norm_num
  have hc2 : ¬edgeCrosses ⟨1 / 10, 1 / 2⟩ ((⟨2, 1⟩ : V2), (⟨1 / 2, 1⟩ : V2)) := by
    intro h
    exact h.1 (iff_of_true (by norm_num) (by norm_num))
  have hc3 : ¬edgeCrosses ⟨1 / 10, 1 / 2⟩ ((⟨1 / 2, 1⟩ : V2), (⟨1 / 2, th⟩ : V2)) := by
    intro h
    exact h.1 (iff_of_true (by norm_num) (by norm_num; linarith))
  have hc4 : ¬edgeCrosses ⟨1 / 10, 1 / 2⟩ ((⟨1 / 2, th⟩ : V2), (⟨-2, th⟩ : V2)) := by
    intro h
    exact h.1 (iff_of_true (by norm_num; linarith) (by norm_num; linarith))
  have hc5 : ¬edgeCrosses ⟨1 / 10, 1 / 2⟩ ((⟨-2, th⟩ : V2), (⟨-2, 0⟩ : V2)) := by
    intro h
    have hlt := h.2
    norm_num at hlt
  have hc6 : ¬edgeCrosses ⟨1 / 10, 1 / 2⟩ ((⟨-2, 0⟩ : V2), (⟨2, 0⟩ : V2)) := by
    intro h
    exact h.1 Iff.rfl
  rw [if_pos hc1, if_neg hc2, if_neg hc3, if_neg hc4, if_neg hc5, if_neg hc6]

/-- (0.1, 0.5) lies inside the tooth hexagon. -/
lemma inside_ex (th : ℝ) (hth : 1 ≤ th) :
    insidePoly [⟨2, 0⟩, ⟨2, 1⟩, ⟨1 / 2, 1⟩, ⟨1 / 2, th⟩, ⟨-2, th⟩, ⟨-2, 0⟩]
      ⟨1 / 10, 1 / 2⟩ := by
  unfold insidePoly
  rw [crossCount_ex th hth]
  exact ⟨0, by norm_num⟩

/-- The polygon signed distance of the tooth hexagon at (0.1, 0.5) is −1/2. -/
lemma polyEval_ex (th : ℝ) (hth : 1 ≤ th) :
    PolyEvaluate [⟨2, 0⟩, ⟨2, 1⟩, ⟨1 / 2, 1⟩, ⟨1 / 2, th⟩, ⟨-2, th⟩, ⟨-2, 0⟩]
      ⟨1 / 10, 1 / 2⟩ = -(1 / 2) := by
  simp only [PolyEvaluate]
  rw [if_pos (inside_ex th hth), minEdge_ex th hth]

/-- C4 counterexample: for the rack `NewGearRack 10 (2/π) 0 0 1` (pitch 2,
half length 10), the points x = −9.9 and x + pitch = −7.9 both lie strictly
inside (−10, 10), yet Evaluate at y = 1/2 differs: near the left end the
length bound |x| − 10 dominates at x but not at x + pitch. -/
theorem C4_counterexample :
    -(NewGearRack 10 (2 / Real.pi) 0 0 1).length < (-(99 / 10) : ℝ) ∧
    (-(99 / 10) : ℝ) < (NewGearRack 10 (2 / Real.pi) 0 0 1).length ∧
    -(NewGearRack 10 (2 / Real.pi) 0 0 1).length <
      (-(99 / 10) : ℝ) + (NewGearRack 10 (2 / Real.pi) 0 0 1).pitch ∧
    (-(99 / 10) : ℝ) + (NewGearRack 10 (2 / Real.pi) 0 0 1).pitch <
      (NewGearRack 10 (2 / Real.pi) 0 0 1).length ∧
    (NewGearRack 10 (2 / Real.pi) 0 0 1).Evaluate
        ⟨(-(99 / 10) : ℝ) + (NewGearRack 10 (2 / Real.pi) 0 0 1).pitch, 1 / 2⟩ ≠
      (NewGearRack 10 (2 / Real.pi) 0 0 1).Evaluate ⟨(-(99 / 10) : ℝ), 1 / 2⟩ := by
  obtain ⟨hp, hL, ht⟩ := rack_ex
  have hpi := Real.pi_pos
  have hq : (0 : ℝ) < 4.5 / Real.pi := by positivity
  have hth : (1 : ℝ) ≤ 1 + 4.5 / Real.pi := by linarith
  refine ⟨?_, ?_, ?_, ?_, ?_⟩
  · rw [hL]
    norm_num
  · rw [hL]
    norm_num
  · rw [hL, hp]
    norm_num
  · rw [hL, hp]
    norm_num
  · simp only [GearRack.Evaluate, hp, hL, ht]
    rw [sawTooth_period, sawTooth_ex]
    rw [show |(1 / 10 : ℝ)| = 1 / 10 by norm_num]
    rw [polyEval_ex _ hth]
    rw [show |(-(99 / 10) : ℝ) + 2| = 79 / 10 by norm_num]
    rw [show |(-(99 / 10) : ℝ)| = 99 / 10 by norm_num]
    rw [show max (-(1 / 2) : ℝ) (79 / 10 - 10) = -(1 / 2) from
      max_eq_left (by norm_num)]
    rw [show max (-(1 / 2) : ℝ) (99 / 10 - 10) = 99 / 10 - 10 from
      max_eq_right (by norm_num)]
    norm_num

/-- C4 amended: Evaluate(x+pitch, y) = Evaluate(x, y) whenever both x and
x+pitch lie strictly inside (−half_length, half_length) AND the folded tooth
distance at (x, y) is at least |x| − half_length and at least
|x+pitch| − half_length (i.e. the finite-length bound does not dominate at
either point). -/
theorem C4_amended (nt m pa bl bh x y : ℝ)
    (h1 : -(NewGearRack nt m pa bl bh).length < x)
    (h2 : x < (NewGearRack nt m pa bl bh).length)
    (h3 : -(NewGearRack nt m pa bl bh).length < x + (NewGearRack nt m pa bl bh).pitch)
    (h4 : x + (NewGearRack nt m pa bl bh).pitch < (NewGearRack nt m pa bl bh).length)
    (h5 : |x| - (NewGearRack nt m pa bl bh).length ≤
      PolyEvaluate (NewGearRack nt m pa bl bh).tooth
        ⟨|SawTooth x (NewGearRack nt m pa bl bh).pitch|, y⟩)
    (h6 : |x + (NewGearRack nt m pa bl bh).pitch| - (NewGearRack nt m pa bl bh).length ≤
      PolyEvaluate (NewGearRack nt m pa bl bh).tooth
        ⟨|SawTooth x (NewGearRack nt m pa bl bh).pitch|, y⟩) :
    (NewGearRack nt m pa bl bh).Evaluate ⟨x + (NewGearRack nt m pa bl bh).pitch, y⟩ =
      (NewGearRack nt m pa bl bh).Evaluate ⟨x, y⟩ := by
  simp only [GearRack.Evaluate]
  rw [sawTooth_period]
  rw [max_eq_left h6, max_eq_left h5]

/-- C4 witness: the rack `NewGearRack 10 (2/π) 0 0 1` at x = 0, y = −1 (below
the rack, where the tooth distance is bounded) satisfies the amended
hypotheses and the periodicity equation. -/
theorem C4_witness :
    (-(NewGearRack 10 (2 / Real.pi) 0 0 1).length < (0 : ℝ) ∧
     (0 : ℝ) < (NewGearRack 10 (2 / Real.pi) 0 0 1).length ∧
     -(NewGearRack 10 (2 / Real.pi) 0 0 1).length <
       (0 : ℝ) + (NewGearRack 10 (2 / Real.pi) 0 0 1).pitch ∧
     (0 : ℝ) + (NewGearRack 10 (2 / Real.pi) 0 0 1).pitch <
       (NewGearRack 10 (2 / Real.pi) 0 0 1).length ∧
     |(0 : ℝ)| - (NewGearRack 10 (2 / Real.pi) 0 0 1).length ≤
       PolyEvaluate (NewGearRack 10 (2 / Real.pi) 0 0 1).tooth
         ⟨|SawTooth 0 (NewGearRack 10 (2 / Real.pi) 0 0 1).pitch|, -1⟩ ∧
     |(0 : ℝ) + (NewGearRack 10 (2 / Real.pi) 0 0 1).pitch| -
         (NewGearRack 10 (2 / Real.pi) 0 0 1).length ≤
       PolyEvaluate (NewGearRack 10 (2 / Real.pi) 0 0 1).tooth
         ⟨|SawTooth 0 (NewGearRack 10 (2 / Real.pi) 0 0 1).pitch|, -1⟩) ∧
    (NewGearRack 10 (2 / Real.pi) 0 0 1).Evaluate
        ⟨(0 : ℝ) + (NewGearRack 10 (2 / Real.pi) 0 0 1).pitch, -1⟩ =
      (NewGearRack 10 (2 / Real.pi) 0 0 1).Evaluate ⟨(0 : ℝ), -1⟩ := by
  obtain ⟨hp, hL, ht⟩ := rack_ex
  have hseg : segDist ⟨0, -1⟩ ⟨-2, 0⟩ ⟨2, 0⟩ = 1 := by
    apply segDist_eval _ _ _ (1 / 2) 1
    · simp only [V2.Sub, V2.Dot]
      norm_num
    · norm_num
    · norm_num
    · norm_num
    · simp only [V2.Sub, V2.Add, V2.MulScalar, V2.Dot]
      norm_num
  have hminle : minEdgeDist ⟨0, -1⟩
      (polyEdges [(⟨2, 0⟩ : V2), ⟨2, 1⟩, ⟨1 / 2, 1⟩, ⟨1 / 2, 1 + 4.5 / Real.pi⟩,
        ⟨-2, 1 + 4.5 / Real.pi⟩, ⟨-2, 0⟩]) ≤ 1 := by
    rw [polyEdges_ex, minEdgeDist_six]
    calc min (segDist ⟨0, -1⟩ ⟨2, 0⟩ ⟨2, 1⟩) (min (segDist ⟨0, -1⟩ ⟨2, 1⟩ ⟨1 / 2, 1⟩)
          (min (segDist ⟨0, -1⟩ ⟨1 / 2, 1⟩ ⟨1 / 2, 1 + 4.5 / Real.pi⟩)
            (min (segDist ⟨0, -1⟩ ⟨1 / 2, 1 + 4.5 / Real.pi⟩ ⟨-2, 1 + 4.5 / Real.pi⟩)
              (min (segDist ⟨0, -1⟩ ⟨-2, 1 + 4.5 / Real.pi⟩ ⟨-2, 0⟩)
                (segDist ⟨0, -1⟩ ⟨-2, 0⟩ ⟨2, 0⟩)))))
        ≤ segDist ⟨0, -1⟩ ⟨-2, 0⟩ ⟨2, 0⟩ :=
      le_trans (min_le_right _ _) (le_trans (min_le_right _ _)
        (le_trans (min_le_right _ _) (le_trans (min_le_right _ _) (min_le_right _ _))))
    _ = 1 := hseg
  have hd0 : -(1 : ℝ) ≤ PolyEvaluate [(⟨2, 0⟩ : V2), ⟨2, 1⟩, ⟨1 / 2, 1⟩,
      ⟨1 / 2, 1 + 4.5 / Real.pi⟩, ⟨-2, 1 + 4.5 / Real.pi⟩, ⟨-2, 0⟩] ⟨0, -1⟩ := by
    have h := polyEval_lower [(⟨2, 0⟩ : V2), ⟨2, 1⟩, ⟨1 / 2, 1⟩,
      ⟨1 / 2, 1 + 4.5 / Real.pi⟩, ⟨-2, 1 + 4.5 / Real.pi⟩, ⟨-2, 0⟩] ⟨0, -1⟩
    linarith
  have h1 : -(NewGearRack 10 (2 / Real.pi) 0 0 1).length < (0 : ℝ) := by
    rw [hL]
    norm_num
  have h2 : (0 : ℝ) < (NewGearRack 10 (2 / Real.pi) 0 0 1).length := by
    rw [hL]
    norm_num
  have h3 : -(NewGearRack 10 (2 / Real.pi) 0 0 1).length <
      (0 : ℝ) + (NewGearRack 10 (2 / Real.pi) 0 0 1).pitch := by
    rw [hL, hp]
    norm_num
  have h4 : (0 : ℝ) + (NewGearRack 10 (2 / Real.pi) 0 0 1).pitch <
      (NewGearRack 10 (2 / Real.pi) 0 0 1).length := by
    rw [hL, hp]
    norm_num
  have h5 : |(0 : ℝ)| - (NewGearRack 10 (2 / Real.pi) 0 0 1).length ≤
      PolyEvaluate (NewGearRack 10 (2 / Real.pi) 0 0 1).tooth
        ⟨|SawTooth 0 (NewGearRack 10 (2 / Real.pi) 0 0 1).pitch|, -1⟩ := by
    rw [hL, hp, ht, sawTooth_zero, show |(0 : ℝ)| = 0 by norm_num]
    linarith
  have h6 : |(0 : ℝ) + (NewGearRack 10 (2 / Real.pi) 0 0 1).pitch| -
      (NewGearRack 10 (2 / Real.pi) 0 0 1).length ≤
      PolyEvaluate (NewGearRack 10 (2 / Real.pi) 0 0 1).tooth
        ⟨|SawTooth 0 (NewGearRack 10 (2 / Real.pi) 0 0 1).pitch|, -1⟩ := by
    rw [hL, hp, ht, sawTooth_zero, show |(0 : ℝ)| = 0 by norm_num,
      show |(0 : ℝ) + 2| = 2 by norm_num]
    linarith
  exact ⟨⟨h1, h2, h3, h4, h5, h6⟩,
    C4_amended 10 (2 / Real.pi) 0 0 1 0 (-1) h1 h2 h3 h4 h5 h6⟩
